import Mathlib

/-!
Shallow embedding of `src/script.js`, a browser-based currency converter,
together with theorems checking its specification.

Modelling choices:
* JavaScript numbers are the type `JSNum`: NaN, the two infinities, or a
  finite value carried as an exact rational (binary floating-point rounding
  is not modelled; none of the properties checked here depends on it).
* The DOM state the script touches is the `Dom` structure: the amount
  input's value, the value and option list of the two currency selects,
  the two message regions, and the convert button's `disabled` flag.
* The two network requests are modelled by outcome values handed to the
  functions as parameters: `FetchOutcome` for `GET /latest` and
  `CatalogOutcome` for `GET /currencies`.  `response.json()` failures are
  folded into `networkError` (both throw and land in the same catch).
* `Intl.NumberFormat(undefined, { style, currency }).format` is
  locale-dependent, so it is an abstract parameter
  `fmt : String → JSNum → String` (currency code, value ↦ rendered text).
-/

set_option autoImplicit false

/-- Model of a JavaScript number: NaN, an infinity, or a finite value
carried as an exact rational. -/
inductive JSNum where
  | nan : JSNum
  | posInf : JSNum
  | negInf : JSNum
  | finite : ℚ → JSNum
deriving DecidableEq

/-- The JavaScript `isNaN` test on a number. -/
def JSNum.isNaN : JSNum → Bool
  | .nan => true
  | _ => false

/-- The JavaScript comparison `x <= 0` (false on NaN). -/
def JSNum.leZero : JSNum → Bool
  | .nan => false
  | .posInf => false
  | .negInf => true
  | .finite q => decide (q ≤ 0)

/-- JavaScript truthiness of a number: NaN and 0 are the falsy numbers. -/
def JSNum.truthy : JSNum → Bool
  | .nan => false
  | .posInf => true
  | .negInf => true
  | .finite q => decide (q ≠ 0)

/-- JavaScript multiplication of two numbers (finite overflow to infinity
is not modelled). -/
def JSNum.mul : JSNum → JSNum → JSNum
  | .nan, _ => .nan
  | _, .nan => .nan
  | .posInf, .posInf => .posInf
  | .posInf, .negInf => .negInf
  | .negInf, .posInf => .negInf
  | .negInf, .negInf => .posInf
  | .posInf, .finite q => if q = 0 then .nan else if 0 < q then .posInf else .negInf
  | .finite q, .posInf => if q = 0 then .nan else if 0 < q then .posInf else .negInf
  | .negInf, .finite q => if q = 0 then .nan else if 0 < q then .negInf else .posInf
  | .finite q, .negInf => if q = 0 then .nan else if 0 < q then .negInf else .posInf
  | .finite a, .finite b => .finite (a * b)

/-- Decimal digit test used by the `parseFloat` model. -/
def isDig (c : Char) : Bool := decide ('0' ≤ c) && decide (c ≤ '9')

/-- Whitespace skipped by `parseFloat` (the common whitespace characters). -/
def isStrWS (c : Char) : Bool := c == ' ' || c == '\t' || c == '\n' || c == '\r'

/-- Value of a block of decimal digits, most significant first. -/
def digitsVal (ds : List Char) : ℕ :=
  ds.foldl (fun n c => 10 * n + (c.toNat - 48)) 0

/-- Value of a fraction-digit block `ds` read after a decimal point. -/
def fracVal (ds : List Char) : ℚ :=
  (digitsVal ds : ℚ) / (10 : ℚ) ^ ds.length

/-- Split an optional leading sign; returns (isNegative, rest). -/
def splitSign (cs : List Char) : Bool × List Char :=
  match cs with
  | [] => (false, [])
  | c :: r => if c = '+' then (false, r) else if c = '-' then (true, r) else (false, c :: r)

/-- The characters of the `Infinity` literal accepted by `parseFloat`. -/
def litInfinity : List Char := ['I', 'n', 'f', 'i', 'n', 'i', 't', 'y']

/-- `hasLit lit cs` holds when `lit` is an initial segment of `cs`. -/
def hasLit : List Char → List Char → Bool
  | [], _ => true
  | _ :: _, [] => false
  | l :: ls, c :: cs => if l = c then hasLit ls cs else false

/-- The exponent part of a JavaScript numeric literal: a factor `10 ^ ±k`
when `e`/`E`, an optional sign, and at least one digit follow, and `1`
otherwise (an incomplete exponent is not consumed). -/
def expFactor (cs : List Char) : ℚ :=
  match cs with
  | [] => 1
  | c :: r =>
    if c = 'e' ∨ c = 'E' then
      if ((splitSign r).2.takeWhile isDig).isEmpty then 1
      else if (splitSign r).1 then 1 / (10 : ℚ) ^ digitsVal ((splitSign r).2.takeWhile isDig)
      else (10 : ℚ) ^ digitsVal ((splitSign r).2.takeWhile isDig)
    else 1

/-- Split an optional fraction part `.digits`; returns (fraction digits, rest). -/
def splitFrac (cs : List Char) : List Char × List Char :=
  match cs with
  | [] => ([], [])
  | c :: r => if c = '.' then (r.takeWhile isDig, r.dropWhile isDig) else ([], c :: r)

/-- The unsigned numeric body accepted by `parseFloat`: integer digits, an
optional fraction, an optional exponent; `none` when there is no digit at
all (trailing junk is ignored). -/
def parseBody (cs : List Char) : Option ℚ :=
  if (cs.takeWhile isDig).isEmpty && (splitFrac (cs.dropWhile isDig)).1.isEmpty then none
  else some (((digitsVal (cs.takeWhile isDig) : ℚ) + fracVal (splitFrac (cs.dropWhile isDig)).1) *
    expFactor (splitFrac (cs.dropWhile isDig)).2)

/-- Model of JavaScript `parseFloat`: skip leading whitespace, read an
optional sign, then either an `Infinity` literal or a decimal literal,
ignoring any trailing characters; NaN when nothing parses. -/
def parseFloat (s : String) : JSNum :=
  if hasLit litInfinity (splitSign (s.toList.dropWhile isStrWS)).2 then
    if (splitSign (s.toList.dropWhile isStrWS)).1 then .negInf else .posInf
  else
    match parseBody (splitSign (s.toList.dropWhile isStrWS)).2 with
    | none => .nan
    | some q => .finite (if (splitSign (s.toList.dropWhile isStrWS)).1 then -q else q)

/-- Two-digit zero-padded rendering of `n < 100`. -/
def pad2 (n : ℕ) : String := if n < 10 then "0" ++ Nat.repr n else Nat.repr n

/-- `q` rendered with exactly 2 decimal places, rounding the magnitude
half-up, as `Number.prototype.toFixed(2)` does on finite values. -/
def toFixed2Q (q : ℚ) : String :=
  (if q < 0 then "-" else "") ++ Nat.repr ((⌊|q| * 100 + 1 / 2⌋).toNat / 100) ++ "." ++
    pad2 ((⌊|q| * 100 + 1 / 2⌋).toNat % 100)

/-- `Number.prototype.toFixed(2)` on a JavaScript number. -/
def JSNum.toFixed2 : JSNum → String
  | .nan => "NaN"
  | .posInf => "Infinity"
  | .negInf => "-Infinity"
  | .finite q => toFixed2Q q

/-- Half-up rounding of `q` to 2 decimal places; for `0 ≤ q` this is the
rational value the string `toFixed2Q q` denotes. -/
def round2 (q : ℚ) : ℚ := (⌊q * 100 + 1 / 2⌋ : ℤ) / 100

/-- The DOM state `script.js` reads and writes. -/
structure Dom where
  amountValue : String
  fromValue : String
  toValue : String
  fromOptions : List (String × String)
  toOptions : List (String × String)
  resultText : String
  resultShown : Bool
  errorText : String
  errorShown : Bool
  convertDisabled : Bool
deriving DecidableEq

/-- `displayError`: show the error region, hide the result region,
re-enable the convert button. -/
def displayError (msg : String) (d : Dom) : Dom :=
  { d with errorText := msg, errorShown := true, resultShown := false, convertDisabled := false }

/-- `displayResult`: show the result region, hide the error region,
re-enable the convert button. -/
def displayResult (msg : String) (d : Dom) : Dom :=
  { d with resultText := msg, resultShown := true, errorShown := false, convertDisabled := false }

/-- The `finally` block of `convertCurrency`. -/
def reenable (d : Dom) : Dom := { d with convertDisabled := false }

/-- The JSON body of a `GET /latest` response: its `rates` field, absent
or an object mapping currency codes to numbers. -/
structure ApiResponse where
  rates : Option (List (String × JSNum))
deriving DecidableEq

/-- The value of `data.rates[code]`: `none` models `undefined`. -/
def ratesLookup (resp : ApiResponse) (code : String) : Option JSNum :=
  match resp.rates with
  | none => none
  | some l => l.lookup code

/-- Outcome of the `GET /latest` fetch: a non-ok HTTP status, a thrown
network (or JSON) error, or a parsed response body. -/
inductive FetchOutcome where
  | httpError : FetchOutcome
  | networkError : FetchOutcome
  | ok : ApiResponse → FetchOutcome
deriving DecidableEq

/-- Message shown on invalid amount input. -/
def invalidAmountMsg : String := "Please enter a valid amount greater than zero."

/-- Message shown when the rate fetch fails for any reason. -/
def convFailedMsg : String := "Conversion failed. Please try again or check the API status."

/-- Message shown when the startup currency-list fetch fails. -/
def catalogFailedMsg : String := "Could not load currency list. Check your network or API status."

/-- Step 1 of `convertCurrency`: hide both message regions and disable the
convert button.  It leaves the three input fields untouched, so the values
read afterwards are those of the original state. -/
def prepped (d : Dom) : Dom :=
  { d with resultShown := false, errorShown := false, convertDisabled := true }

/-- `convertCurrency` from `script.js`.  `fetch` gives the outcome of the
rate request per (from, to) pair and `fmt` stands for the
`Intl.NumberFormat` currency formatter.  Returns the final DOM state and
whether a network call was issued. -/
def convertCurrency (fetch : String → String → FetchOutcome)
    (fmt : String → JSNum → String) (d0 : Dom) : Dom × Bool :=
  if (parseFloat d0.amountValue).isNaN || (parseFloat d0.amountValue).leZero then
    (displayError invalidAmountMsg (prepped d0), false)
  else if d0.fromValue = d0.toValue then
    (displayResult ((parseFloat d0.amountValue).toFixed2 ++ " " ++ d0.fromValue ++
      " is equal to " ++ (parseFloat d0.amountValue).toFixed2 ++ " " ++ d0.toValue ++ ".")
      (prepped d0), false)
  else
    match fetch d0.fromValue d0.toValue with
    | .httpError => (reenable (displayError convFailedMsg (prepped d0)), true)
    | .networkError => (reenable (displayError convFailedMsg (prepped d0)), true)
    | .ok resp =>
      match ratesLookup resp d0.toValue with
      | none => (reenable (displayError convFailedMsg (prepped d0)), true)
      | some rate =>
        if rate.truthy then
          (reenable (displayResult ((parseFloat d0.amountValue).toFixed2 ++ " " ++
            d0.fromValue ++ " is approximately " ++
            fmt d0.toValue ((parseFloat d0.amountValue).mul rate)) (prepped d0)), true)
        else (reenable (displayError convFailedMsg (prepped d0)), true)

/-- `swapCurrencies` from `script.js`: exchange the two select values,
then run `convertCurrency`. -/
def swapCurrencies (fetch : String → String → FetchOutcome)
    (fmt : String → JSNum → String) (d : Dom) : Dom × Bool :=
  convertCurrency fetch fmt { d with fromValue := d.toValue, toValue := d.fromValue }

/-- Outcome of the startup `GET /currencies` fetch. -/
inductive CatalogOutcome where
  | httpError : CatalogOutcome
  | networkError : CatalogOutcome
  | ok : List (String × String) → CatalogOutcome

/-- Ordered insertion used to model `Array.prototype.sort()` on strings. -/
def insertStr (x : String) : List String → List String
  | [] => [x]
  | y :: ys => if x ≤ y then x :: y :: ys else y :: insertStr x ys

/-- Model of `Object.keys(data).sort()`: the keys in ascending order. -/
def sortStrs : List String → List String
  | [] => []
  | x :: xs => insertStr x (sortStrs xs)

/-- Setting `select.value = v`: keeps `v` when some option has that value,
otherwise the selection becomes empty. -/
def selectValue (opts : List (String × String)) (v : String) : String :=
  if (opts.map Prod.fst).contains v then v else ""

/-- The option list built from a catalog response: one `(value, label)`
pair per sorted code, labelled `CODE - Display Name`. -/
def catalogOpts (data : List (String × String)) : List (String × String) :=
  (sortStrs (data.map Prod.fst)).map
    (fun c => (c, c ++ " - " ++ ((data.lookup c).getD "undefined")))

/-- `getCurrencies` from `script.js`: on failure show the catalog error;
on success append one option per sorted code to both selects, then set the
defaults `USD` and `EUR`. -/
def getCurrencies (cf : CatalogOutcome) (d : Dom) : Dom :=
  match cf with
  | .httpError => displayError catalogFailedMsg d
  | .networkError => displayError catalogFailedMsg d
  | .ok data =>
    { d with
      fromOptions := d.fromOptions ++ catalogOpts data,
      toOptions := d.toOptions ++ catalogOpts data,
      fromValue := selectValue (d.fromOptions ++ catalogOpts data) "USD",
      toValue := selectValue (d.toOptions ++ catalogOpts data) "EUR" }

/-- A rate response carrying `rates = { EUR: 0.9 }` (spec scenario 3). -/
def rates90 : ApiResponse := ⟨some [("EUR", JSNum.finite (9 / 10))]⟩

/-- A fetch that always succeeds with `rates90`. -/
def fetch90 : String → String → FetchOutcome := fun _ _ => .ok rates90

/-- A concrete stand-in for the `Intl.NumberFormat` currency formatter,
used by the witnesses: `value.toFixed(2)` followed by the currency code. -/
def fmtPlain : String → JSNum → String := fun code v => v.toFixed2 ++ " " ++ code

/-- Initial DOM: amount `100`, source `USD`, target `EUR`. -/
def dom100 : Dom := ⟨"100", "USD", "EUR", [], [], "", false, "", false, false⟩

/-- Initial DOM: amount `100`, source and target both `USD` (scenario 1). -/
def domSame : Dom := ⟨"100", "USD", "USD", [], [], "", false, "", false, false⟩

/-- A fetch that always returns a non-ok HTTP status. -/
def fetchHttpFail : String → String → FetchOutcome := fun _ _ => .httpError

/-- A rate response carrying `rates = { EUR: 0 }`. -/
def ratesZero : ApiResponse := ⟨some [("EUR", JSNum.finite 0)]⟩

/-- A fetch that always succeeds with `ratesZero`. -/
def fetchZeroRate : String → String → FetchOutcome := fun _ _ => .ok ratesZero

/-- Initial DOM: amount input `Infinity`, source `USD`, target `EUR`. -/
def domInfinity : Dom := ⟨"Infinity", "USD", "EUR", [], [], "", false, "", false, false⟩

/-- Initial DOM: amount `-5` (spec scenario 2). -/
def domNeg5 : Dom := ⟨"-5", "USD", "EUR", [], [], "", false, "", false, false⟩

/-- Initial DOM: amount input `12abc`, source `USD`, target `EUR`. -/
def dom12abc : Dom := ⟨"12abc", "USD", "EUR", [], [], "", false, "", false, false⟩

/-- A rate response carrying `rates = { USD: 10/9 }`, the reciprocal leg. -/
def ratesRT : ApiResponse := ⟨some [("USD", JSNum.finite (10 / 9))]⟩

/-- A fetch for the round trip: rate 0.9 towards `EUR`, 10/9 otherwise. -/
def fetchRT : String → String → FetchOutcome :=
  fun _ t => if t = "EUR" then .ok rates90 else .ok ratesRT

/-- Initial DOM for the return leg: amount `90.00`, source `EUR`, target `USD`. -/
def dom90 : Dom := ⟨"90.00", "EUR", "USD", [], [], "", false, "", false, false⟩

/-- Path lemma: an invalid amount takes the validation-error exit. -/
theorem convertCurrency_invalid (fetch : String → String → FetchOutcome)
    (fmt : String → JSNum → String) (d : Dom)
    (h : ((parseFloat d.amountValue).isNaN || (parseFloat d.amountValue).leZero) = true) :
    convertCurrency fetch fmt d = (displayError invalidAmountMsg (prepped d), false) := by
  unfold convertCurrency
  rw [if_pos h]

/-- Path lemma: equal source and target take the short-circuit exit. -/
theorem convertCurrency_same (fetch : String → String → FetchOutcome)
    (fmt : String → JSNum → String) (d : Dom) (a : ℚ)
    (hs : parseFloat d.amountValue = .finite a) (ha : 0 < a)
    (heq : d.fromValue = d.toValue) :
    convertCurrency fetch fmt d =
      (displayResult (toFixed2Q a ++ " " ++ d.fromValue ++ " is equal to " ++
          toFixed2Q a ++ " " ++ d.toValue ++ ".") (prepped d), false) := by
  unfold convertCurrency
  rw [hs]
  have h1 : ((JSNum.finite a).isNaN || (JSNum.finite a).leZero) = false := by
    simp [JSNum.isNaN, JSNum.leZero, not_le, ha]
  rw [h1]
  rw [if_neg (by simp)]
  rw [if_pos heq]
  rfl

/-- Path lemma: a successful fetch with a truthy finite rate takes the
success exit, displaying `amount * rate` formatted by `fmt`. -/
theorem convertCurrency_success (fetch : String → String → FetchOutcome)
    (fmt : String → JSNum → String) (d : Dom) (a r : ℚ) (resp : ApiResponse)
    (hs : parseFloat d.amountValue = .finite a) (ha : 0 < a)
    (hAB : d.fromValue ≠ d.toValue)
    (hf : fetch d.fromValue d.toValue = .ok resp)
    (hr : ratesLookup resp d.toValue = some (.finite r)) (hrz : r ≠ 0) :
    convertCurrency fetch fmt d =
      (displayResult (toFixed2Q a ++ " " ++ d.fromValue ++ " is approximately " ++
          fmt d.toValue (JSNum.finite (a * r))) (prepped d), true) := by
  unfold convertCurrency
  rw [hs]
  have h1 : ((JSNum.finite a).isNaN || (JSNum.finite a).leZero) = false := by
    simp [JSNum.isNaN, JSNum.leZero, not_le, ha]
  rw [h1]
  rw [if_neg (by simp)]
  rw [if_neg hAB, hf]
  dsimp only
  rw [hr]
  dsimp only
  have h2 : (JSNum.finite r).truthy = true := by simp [JSNum.truthy, hrz]
  rw [h2]
  rfl

/-- Path lemma: an HTTP error, a network error, a missing rate entry, or a
falsy rate all take the catch exit with the generic failure message. -/
theorem convertCurrency_fetchErr (fetch : String → String → FetchOutcome)
    (fmt : String → JSNum → String) (d : Dom) (a : ℚ)
    (hs : parseFloat d.amountValue = .finite a) (ha : 0 < a)
    (hAB : d.fromValue ≠ d.toValue)
    (hfail : fetch d.fromValue d.toValue = .httpError ∨
      fetch d.fromValue d.toValue = .networkError ∨
      ∃ resp, fetch d.fromValue d.toValue = .ok resp ∧
        (ratesLookup resp d.toValue = none ∨
          ∃ v, ratesLookup resp d.toValue = some v ∧ v.truthy = false)) :
    convertCurrency fetch fmt d =
      (displayError convFailedMsg (prepped d), true) := by
  unfold convertCurrency
  rw [hs]
  have h1 : ((JSNum.finite a).isNaN || (JSNum.finite a).leZero) = false := by
    simp [JSNum.isNaN, JSNum.leZero, not_le, ha]
  rw [h1]
  rw [if_neg (by simp)]
  rw [if_neg hAB]
  rcases hfail with hf | hf | ⟨resp, hf, hlk⟩
  · rw [hf]
    rfl
  · rw [hf]
    rfl
  · rw [hf]
    dsimp only
    rcases hlk with hlk | ⟨v, hlk, hv⟩
    · rw [hlk]
      rfl
    · rw [hlk]
      dsimp only
      rw [hv]
      rfl

/-- `convertCurrency` never writes the two select values. -/
theorem convertCurrency_keeps_inputs (fetch : String → String → FetchOutcome)
    (fmt : String → JSNum → String) (d : Dom) :
    ((convertCurrency fetch fmt d).1).fromValue = d.fromValue ∧
    ((convertCurrency fetch fmt d).1).toValue = d.toValue := by
  unfold convertCurrency
  split
  · exact ⟨rfl, rfl⟩
  · split
    · exact ⟨rfl, rfl⟩
    · rcases fetch d.fromValue d.toValue with _ | _ | resp <;> dsimp only
      · exact ⟨rfl, rfl⟩
      · exact ⟨rfl, rfl⟩
      · rcases ratesLookup resp d.toValue with _ | v <;> dsimp only
        · exact ⟨rfl, rfl⟩
        · split <;> exact ⟨rfl, rfl⟩

/-- `takeWhile` passes over a block that satisfies the predicate. -/
theorem takeWhile_append_all {α : Type} (p : α → Bool) (l r : List α)
    (h : ∀ a ∈ l, p a = true) : (l ++ r).takeWhile p = l ++ r.takeWhile p := by
  induction l with
  | nil => simp
  | cons x xs ih =>
    have hx := h x (List.mem_cons_self x xs)
    simp [List.takeWhile_cons, hx, ih (fun a ha => h a (List.mem_cons_of_mem x ha))]

/-- `dropWhile` drops a whole block that satisfies the predicate. -/
theorem dropWhile_append_all {α : Type} (p : α → Bool) (l r : List α)
    (h : ∀ a ∈ l, p a = true) : (l ++ r).dropWhile p = r.dropWhile p := by
  induction l with
  | nil => simp
  | cons x xs ih =>
    have hx := h x (List.mem_cons_self x xs)
    simp [List.dropWhile_cons, hx, ih (fun a ha => h a (List.mem_cons_of_mem x ha))]

/-- A decimal digit is not parse whitespace. -/
theorem dig_not_ws {c : Char} (h : isDig c = true) : isStrWS c = false := by
  have hsp : c ≠ ' ' := fun e => by subst e; exact absurd h (by decide)
  have htab : c ≠ '\t' := fun e => by subst e; exact absurd h (by decide)
  have hnl : c ≠ '\n' := fun e => by subst e; exact absurd h (by decide)
  have hcr : c ≠ '\r' := fun e => by subst e; exact absurd h (by decide)
  simp [isStrWS, hsp, htab, hnl, hcr]

/-- A decimal digit is not a sign character and does not open `Infinity`. -/
theorem dig_not_special {c : Char} (h : isDig c = true) :
    c ≠ '+' ∧ c ≠ '-' ∧ 'I' ≠ c :=
  ⟨fun e => by subst e; exact absurd h (by decide),
   fun e => by subst e; exact absurd h (by decide),
   fun e => by rw [← e] at h; exact absurd h (by decide)⟩

/-- A digit block followed by a character that extends neither the
fraction nor the exponent parses to the value of the digit block. -/
theorem parseBody_digits_junk (p0 : Char) (pre : List Char) (c : Char) (cs : List Char)
    (hpre : ∀ a ∈ p0 :: pre, isDig a = true)
    (hc : isDig c = false) (hdot : c ≠ '.') (he : c ≠ 'e') (hE : c ≠ 'E') :
    parseBody (p0 :: (pre ++ c :: cs)) = some ((digitsVal (p0 :: pre) : ℚ)) := by
  have ht : List.takeWhile isDig (p0 :: (pre ++ c :: cs)) = p0 :: pre := by
    rw [← List.cons_append, takeWhile_append_all isDig (p0 :: pre) (c :: cs) hpre,
      List.takeWhile_cons]
    simp [hc]
  have hd : List.dropWhile isDig (p0 :: (pre ++ c :: cs)) = c :: cs := by
    rw [← List.cons_append, dropWhile_append_all isDig (p0 :: pre) (c :: cs) hpre,
      List.dropWhile_cons]
    simp [hc]
  unfold parseBody
  rw [ht, hd]
  rw [show splitFrac (c :: cs) = ([], c :: cs) from by
    unfold splitFrac
    dsimp only
    rw [if_neg hdot]]
  rw [if_neg (by simp)]
  rw [show expFactor (c :: cs) = 1 from by
    unfold expFactor
    dsimp only
    rw [if_neg (not_or.mpr ⟨he, hE⟩)]]
  rw [show fracVal [] = 0 from by simp [fracVal, digitsVal]]
  rw [add_zero, mul_one]

/-- `parseFloat` on digits followed by non-numeric junk yields the value
of the digit prefix. -/
theorem parseFloat_digits_junk (p0 : Char) (pre : List Char) (c : Char) (cs : List Char)
    (hpre : ∀ a ∈ p0 :: pre, isDig a = true)
    (hc : isDig c = false) (hdot : c ≠ '.') (he : c ≠ 'e') (hE : c ≠ 'E') :
    parseFloat (String.mk ((p0 :: pre) ++ c :: cs)) = .finite (digitsVal (p0 :: pre)) := by
  have hp0 := hpre p0 (List.mem_cons_self p0 pre)
  have hws := dig_not_ws hp0
  have hsp := dig_not_special hp0
  unfold parseFloat
  rw [show (String.mk ((p0 :: pre) ++ c :: cs)).toList = p0 :: (pre ++ c :: cs) from rfl]
  rw [show List.dropWhile isStrWS (p0 :: (pre ++ c :: cs)) = p0 :: (pre ++ c :: cs) from by
    rw [List.dropWhile_cons]
    simp [hws]]
  rw [show splitSign (p0 :: (pre ++ c :: cs)) = (false, p0 :: (pre ++ c :: cs)) from by
    unfold splitSign
    dsimp only
    rw [if_neg hsp.1, if_neg hsp.2.1]]
  dsimp only
  rw [show hasLit litInfinity (p0 :: (pre ++ c :: cs)) = false from by
    unfold litInfinity hasLit
    rw [if_neg hsp.2.2]]
  rw [if_neg (by simp : ¬ (false = true))]
  rw [parseBody_digits_junk p0 pre c cs hpre hc hdot he hE]
  dsimp only
  simp

/-- Rounding to 2 decimal places moves a value by at most 1/200. -/
theorem round2_close (q : ℚ) : |round2 q - q| ≤ 1 / 200 := by
  have h1 := Int.floor_le (q * 100 + 1 / 2)
  have h2 := Int.lt_floor_add_one (q * 100 + 1 / 2)
  unfold round2
  rw [abs_le]
  constructor <;> linarith

/-- Evaluation: `parseFloat "100"` is the finite number 100. -/
theorem parseFloat_100 : parseFloat "100" = JSNum.finite 100 := by
  simp [parseFloat, parseBody, splitSign, splitFrac, hasLit, litInfinity, isStrWS, isDig,
    digitsVal, fracVal, expFactor, List.dropWhile, List.takeWhile]

/-- Evaluation: `parseFloat "90.00"` is the finite number 90. -/
theorem parseFloat_9000 : parseFloat "90.00" = JSNum.finite 90 := by
  simp [parseFloat, parseBody, splitSign, splitFrac, hasLit, litInfinity, isStrWS, isDig,
    digitsVal, fracVal, expFactor, List.dropWhile, List.takeWhile]

/-- Evaluation: `parseFloat "-5"` is the finite number -5. -/
theorem parseFloat_neg5 : parseFloat "-5" = JSNum.finite (-5) := by
  simp [parseFloat, parseBody, splitSign, splitFrac, hasLit, litInfinity, isStrWS, isDig,
    digitsVal, fracVal, expFactor, List.dropWhile, List.takeWhile]

/-- Evaluation: `parseFloat "Infinity"` is positive infinity, which is
neither NaN nor `<= 0`, so the validation guard does not reject it. -/
theorem parseFloat_Infinity : parseFloat "Infinity" = JSNum.posInf := by decide

/-- Evaluation: 100 rendered to 2 decimal places. -/
theorem toFixed2Q_100 : toFixed2Q 100 = "100.00" := by
  unfold toFixed2Q
  rw [show ⌊|(100 : ℚ)| * 100 + 1 / 2⌋ = (10000 : ℤ) by norm_num]
  decide

/-- Evaluation: 90 rendered to 2 decimal places. -/
theorem toFixed2Q_90 : toFixed2Q 90 = "90.00" := by
  unfold toFixed2Q
  rw [show ⌊|(90 : ℚ)| * 100 + 1 / 2⌋ = (9000 : ℤ) by norm_num]
  decide

/-- Evaluation: 12 rendered to 2 decimal places. -/
theorem toFixed2Q_12 : toFixed2Q 12 = "12.00" := by
  unfold toFixed2Q
  rw [show ⌊|(12 : ℚ)| * 100 + 1 / 2⌋ = (1200 : ℤ) by norm_num]
  decide

/-- Evaluation: 10.8 rendered to 2 decimal places. -/
theorem toFixed2Q_10_8 : toFixed2Q (54 / 5) = "10.80" := by
  unfold toFixed2Q
  rw [show |(54 / 5 : ℚ)| = 54 / 5 by rw [abs_of_nonneg]; norm_num]
  rw [show ⌊(54 / 5 : ℚ) * 100 + 1 / 2⌋ = (1080 : ℤ) by norm_num]
  rw [if_neg (by norm_num : ¬ (54 / 5 : ℚ) < 0)]
  decide

/-- C1: for every conversion request with a valid positive amount, distinct
source and target currencies, and a successful rate fetch whose rates
mapping contains a positive rate for the target currency, `convertCurrency`
shows a success message `<amount to 2 decimals> <source> is approximately
<fmt target (amount * rate)>`: the value handed to the currency formatter
is exactly `amount * rate`, with no rounding before the multiplication. -/
theorem c1_success_message (fetch : String → String → FetchOutcome)
    (fmt : String → JSNum → String) (d : Dom) (a r : ℚ) (resp : ApiResponse)
    (hs : parseFloat d.amountValue = .finite a) (ha : 0 < a)
    (hAB : d.fromValue ≠ d.toValue)
    (hf : fetch d.fromValue d.toValue = .ok resp)
    (hr : ratesLookup resp d.toValue = some (.finite r)) (hrpos : 0 < r) :
    (convertCurrency fetch fmt d).1.resultText =
      toFixed2Q a ++ " " ++ d.fromValue ++ " is approximately " ++
        fmt d.toValue (JSNum.finite (a * r)) ∧
    (convertCurrency fetch fmt d).1.resultShown = true ∧
    (convertCurrency fetch fmt d).1.errorShown = false := by
  rw [convertCurrency_success fetch fmt d a r resp hs ha hAB hf hr (ne_of_gt hrpos)]
  exact ⟨rfl, rfl, rfl⟩

/-- C1 witness: amount 100, USD to EUR at rate 0.9 (spec scenario 3). -/
theorem c1_success_message_witness :
    (convertCurrency fetch90 fmtPlain dom100).1.resultText =
      "100.00 USD is approximately 90.00 EUR" ∧
    (convertCurrency fetch90 fmtPlain dom100).1.resultShown = true ∧
    (convertCurrency fetch90 fmtPlain dom100).1.errorShown = false := by
  obtain ⟨h1, h2, h3⟩ := c1_success_message fetch90 fmtPlain dom100 100 (9 / 10) rates90
    parseFloat_100 (by norm_num) (by decide) rfl rfl (by norm_num)
  refine ⟨?_, h2, h3⟩
  rw [h1, toFixed2Q_100, show (100 : ℚ) * (9 / 10) = 90 by norm_num]
  show "100.00" ++ " " ++ "USD" ++ " is approximately " ++ fmtPlain "EUR" (JSNum.finite 90) =
    "100.00 USD is approximately 90.00 EUR"
  rw [show fmtPlain "EUR" (JSNum.finite 90) = toFixed2Q 90 ++ " " ++ "EUR" from rfl, toFixed2Q_90]
  decide

/-- C2 counterexample: the input `Infinity` does not parse as a finite
number, yet `convertCurrency` performs the network call and shows a success
message, not the validation failure — the guard `isNaN(amount) || amount <= 0`
does not test finiteness.  This falsifies C2 as stated. -/
theorem c2_counterexample :
    parseFloat domInfinity.amountValue = JSNum.posInf ∧
    (convertCurrency fetch90 fmtPlain domInfinity).2 = true ∧
    (convertCurrency fetch90 fmtPlain domInfinity).1.errorShown = false ∧
    (convertCurrency fetch90 fmtPlain domInfinity).1.resultShown = true := by
  have hrun : convertCurrency fetch90 fmtPlain domInfinity =
      (reenable (displayResult (JSNum.posInf.toFixed2 ++ " " ++ domInfinity.fromValue ++
        " is approximately " ++ fmtPlain domInfinity.toValue
          (JSNum.posInf.mul (JSNum.finite (9 / 10)))) (prepped domInfinity)), true) := by
    unfold convertCurrency
    rw [show parseFloat domInfinity.amountValue = JSNum.posInf from parseFloat_Infinity]
    rw [if_neg (by decide : ¬ ((JSNum.posInf.isNaN || JSNum.posInf.leZero) = true))]
    rw [if_neg (by decide : ¬ (domInfinity.fromValue = domInfinity.toValue))]
    rw [show fetch90 domInfinity.fromValue domInfinity.toValue = .ok rates90 from rfl]
    dsimp only
    rw [show ratesLookup rates90 domInfinity.toValue = some (JSNum.finite (9 / 10)) from rfl]
    dsimp only
    rw [show (JSNum.finite ((9 : ℚ) / 10)).truthy = true by
      simp only [JSNum.truthy, decide_eq_true_eq]
      norm_num]
    rfl
  exact ⟨parseFloat_Infinity, by rw [hrun], by rw [hrun]; rfl, by rw [hrun]; rfl⟩

/-- C2 (amended): for every input amount that parses as NaN or to a value
not strictly greater than zero, `convertCurrency` immediately shows
"Please enter a valid amount greater than zero." and performs no network
call.  (An input parsing to positive infinity is not rejected.) -/
theorem c2_amended_validation (fetch : String → String → FetchOutcome)
    (fmt : String → JSNum → String) (d : Dom)
    (h : (parseFloat d.amountValue).isNaN = true ∨ (parseFloat d.amountValue).leZero = true) :
    (convertCurrency fetch fmt d).1.errorText = invalidAmountMsg ∧
    (convertCurrency fetch fmt d).1.errorShown = true ∧
    (convertCurrency fetch fmt d).1.resultShown = false ∧
    (convertCurrency fetch fmt d).2 = false := by
  have hb : ((parseFloat d.amountValue).isNaN || (parseFloat d.amountValue).leZero) = true := by
    rcases h with h | h <;> simp [h]
  rw [convertCurrency_invalid fetch fmt d hb]
  exact ⟨rfl, rfl, rfl, rfl⟩

/-- C2 witness: amount `-5` (spec scenario 2). -/
theorem c2_amended_validation_witness :
    (convertCurrency fetch90 fmtPlain domNeg5).1.errorText =
      "Please enter a valid amount greater than zero." ∧
    (convertCurrency fetch90 fmtPlain domNeg5).1.errorShown = true ∧
    (convertCurrency fetch90 fmtPlain domNeg5).1.resultShown = false ∧
    (convertCurrency fetch90 fmtPlain domNeg5).2 = false := by
  refine c2_amended_validation fetch90 fmtPlain domNeg5 (Or.inr ?_)
  rw [show parseFloat domNeg5.amountValue = JSNum.finite (-5) from parseFloat_neg5]
  simp only [JSNum.leZero, decide_eq_true_eq]
  norm_num

/-- C3: for every valid positive amount, when the selected source equals
the selected target, `convertCurrency` shows `<amount to 2 decimals>
<source> is equal to <amount to 2 decimals> <target>.` and performs no
network call. -/
theorem c3_same_currency (fetch : String → String → FetchOutcome)
    (fmt : String → JSNum → String) (d : Dom) (a : ℚ)
    (hs : parseFloat d.amountValue = .finite a) (ha : 0 < a)
    (heq : d.fromValue = d.toValue) :
    (convertCurrency fetch fmt d).1.resultText =
      toFixed2Q a ++ " " ++ d.fromValue ++ " is equal to " ++
        toFixed2Q a ++ " " ++ d.toValue ++ "." ∧
    (convertCurrency fetch fmt d).1.resultShown = true ∧
    (convertCurrency fetch fmt d).1.errorShown = false ∧
    (convertCurrency fetch fmt d).2 = false := by
  rw [convertCurrency_same fetch fmt d a hs ha heq]
  exact ⟨rfl, rfl, rfl, rfl⟩

/-- C3 witness: amount 100, USD to USD (spec scenario 1). -/
theorem c3_same_currency_witness :
    (convertCurrency fetch90 fmtPlain domSame).1.resultText =
      "100.00 USD is equal to 100.00 USD." ∧
    (convertCurrency fetch90 fmtPlain domSame).1.resultShown = true ∧
    (convertCurrency fetch90 fmtPlain domSame).1.errorShown = false ∧
    (convertCurrency fetch90 fmtPlain domSame).2 = false := by
  obtain ⟨h1, h2, h3, h4⟩ := c3_same_currency fetch90 fmtPlain domSame 100
    parseFloat_100 (by norm_num) rfl
  refine ⟨?_, h2, h3, h4⟩
  rw [h1, toFixed2Q_100]
  decide

/-- C4: for every request that reaches the rate fetch, a non-ok HTTP
status, a network error, and a response missing the `rates` field or the
target's rate entry all produce the same failure message
"Conversion failed. Please try again or check the API status." — the three
causes are not distinguished in what the user sees. -/
theorem c4_fetch_failures_one_message (fetch : String → String → FetchOutcome)
    (fmt : String → JSNum → String) (d : Dom) (a : ℚ)
    (hs : parseFloat d.amountValue = .finite a) (ha : 0 < a)
    (hAB : d.fromValue ≠ d.toValue)
    (hcause : fetch d.fromValue d.toValue = .httpError ∨
      fetch d.fromValue d.toValue = .networkError ∨
      ∃ resp, fetch d.fromValue d.toValue = .ok resp ∧
        (resp.rates = none ∨ ratesLookup resp d.toValue = none)) :
    (convertCurrency fetch fmt d).1.errorText = convFailedMsg ∧
    (convertCurrency fetch fmt d).1.errorShown = true ∧
    (convertCurrency fetch fmt d).1.resultShown = false := by
  have hfail : fetch d.fromValue d.toValue = .httpError ∨
      fetch d.fromValue d.toValue = .networkError ∨
      ∃ resp, fetch d.fromValue d.toValue = .ok resp ∧
        (ratesLookup resp d.toValue = none ∨
          ∃ v, ratesLookup resp d.toValue = some v ∧ v.truthy = false) := by
    rcases hcause with h | h | ⟨resp, h, hmiss⟩
    · exact Or.inl h
    · exact Or.inr (Or.inl h)
    · refine Or.inr (Or.inr ⟨resp, h, Or.inl ?_⟩)
      rcases hmiss with hm | hm
      · simp [ratesLookup, hm]
      · exact hm
  rw [convertCurrency_fetchErr fetch fmt d a hs ha hAB hfail]
  exact ⟨rfl, rfl, rfl⟩

/-- C4 witness: the HTTP-error cause at amount 100, USD to EUR. -/
theorem c4_fetch_failures_one_message_witness :
    (convertCurrency fetchHttpFail fmtPlain dom100).1.errorText =
      "Conversion failed. Please try again or check the API status." ∧
    (convertCurrency fetchHttpFail fmtPlain dom100).1.errorShown = true ∧
    (convertCurrency fetchHttpFail fmtPlain dom100).1.resultShown = false := by
  obtain ⟨h1, h2, h3⟩ := c4_fetch_failures_one_message fetchHttpFail fmtPlain dom100 100
    parseFloat_100 (by norm_num) (by decide) (Or.inl rfl)
  exact ⟨h1, h2, h3⟩

/-- C5: on every exit path of `convertCurrency` — validation failure,
same-currency short-circuit, fetch success, and every fetch/parse error —
the convert button is re-enabled (`disabled = false`) by the time the
invocation completes. -/
theorem c5_button_reenabled_all_paths (fetch : String → String → FetchOutcome)
    (fmt : String → JSNum → String) (d : Dom) :
    ((convertCurrency fetch fmt d).1).convertDisabled = false := by
  unfold convertCurrency
  split
  · rfl
  · split
    · rfl
    · rcases fetch d.fromValue d.toValue with _ | _ | resp <;> dsimp only
      · rfl
      · rfl
      · rcases ratesLookup resp d.toValue with _ | v <;> dsimp only
        · rfl
        · split <;> rfl

/-- C6: the swap operation exchanges the two selections and then runs the
full `convertCurrency` workflow on the swapped state (no separate
validation), so the conversion after a swap uses the post-swap source and
target, which also remain in place afterwards. -/
theorem c6_swap_uses_post_swap (fetch : String → String → FetchOutcome)
    (fmt : String → JSNum → String) (d : Dom) :
    swapCurrencies fetch fmt d =
      convertCurrency fetch fmt { d with fromValue := d.toValue, toValue := d.fromValue } ∧
    (swapCurrencies fetch fmt d).1.fromValue = d.toValue ∧
    (swapCurrencies fetch fmt d).1.toValue = d.fromValue := by
  refine ⟨rfl, ?_, ?_⟩
  · exact (convertCurrency_keeps_inputs fetch fmt
      { d with fromValue := d.toValue, toValue := d.fromValue }).1
  · exact (convertCurrency_keeps_inputs fetch fmt
      { d with fromValue := d.toValue, toValue := d.fromValue }).2

/-- C7: when the startup catalog fetch returns a non-ok HTTP status or a
network error, the loader shows "Could not load currency list. Check your
network or API status." and adds no option to either selection control. -/
theorem c7_catalog_failure (d : Dom) :
    ((getCurrencies .httpError d).errorText = catalogFailedMsg ∧
      (getCurrencies .httpError d).errorShown = true ∧
      (getCurrencies .httpError d).fromOptions = d.fromOptions ∧
      (getCurrencies .httpError d).toOptions = d.toOptions) ∧
    ((getCurrencies .networkError d).errorText = catalogFailedMsg ∧
      (getCurrencies .networkError d).errorShown = true ∧
      (getCurrencies .networkError d).fromOptions = d.fromOptions ∧
      (getCurrencies .networkError d).toOptions = d.toOptions) :=
  ⟨⟨rfl, rfl, rfl, rfl⟩, ⟨rfl, rfl, rfl, rfl⟩⟩

/-- C8: with reciprocal rates (`r1 * r2 = 1`), converting a valid positive
amount A→B and feeding the 2-decimal-rounded result back B→A yields a
converted amount within `r2 / 200` of the original — the tolerance
introduced by the 2-decimal-place rounding of the intermediate value. -/
theorem c8_roundtrip (fetch : String → String → FetchOutcome)
    (fmt : String → JSNum → String) (d1 d2 : Dom) (a r1 r2 : ℚ)
    (resp1 resp2 : ApiResponse)
    (ha : 0 < a) (hr1 : 0 < r1) (hrec : r1 * r2 = 1)
    (hs1 : parseFloat d1.amountValue = .finite a)
    (hAB : d1.fromValue ≠ d1.toValue)
    (hf1 : fetch d1.fromValue d1.toValue = .ok resp1)
    (hlk1 : ratesLookup resp1 d1.toValue = some (.finite r1))
    (hs2 : parseFloat d2.amountValue = .finite (round2 (a * r1)))
    (hd2from : d2.fromValue = d1.toValue) (hd2to : d2.toValue = d1.fromValue)
    (hf2 : fetch d2.fromValue d2.toValue = .ok resp2)
    (hlk2 : ratesLookup resp2 d2.toValue = some (.finite r2))
    (hmin : 1 / 200 ≤ a * r1) :
    (convertCurrency fetch fmt d1).1.resultText =
      toFixed2Q a ++ " " ++ d1.fromValue ++ " is approximately " ++
        fmt d1.toValue (JSNum.finite (a * r1)) ∧
    ∃ c2 : ℚ, (convertCurrency fetch fmt d2).1.resultText =
      toFixed2Q (round2 (a * r1)) ++ " " ++ d2.fromValue ++ " is approximately " ++
        fmt d2.toValue (JSNum.finite c2) ∧
      |c2 - a| ≤ r2 / 200 := by
  have hr2 : 0 < r2 := by
    by_contra h
    push_neg at h
    have hle : r1 * r2 ≤ 0 := mul_nonpos_of_nonneg_of_nonpos hr1.le h
    rw [hrec] at hle
    linarith
  have hround_pos : 0 < round2 (a * r1) := by
    unfold round2
    have hfl : (1 : ℤ) ≤ ⌊a * r1 * 100 + 1 / 2⌋ := by
      rw [Int.le_floor]
      push_cast
      linarith
    have hflq : (1 : ℚ) ≤ (⌊a * r1 * 100 + 1 / 2⌋ : ℚ) := by exact_mod_cast hfl
    linarith
  have hAB2 : d2.fromValue ≠ d2.toValue := by
    rw [hd2from, hd2to]
    exact Ne.symm hAB
  rw [convertCurrency_success fetch fmt d1 a r1 resp1 hs1 ha hAB hf1 hlk1 (ne_of_gt hr1)]
  rw [convertCurrency_success fetch fmt d2 (round2 (a * r1)) r2 resp2 hs2 hround_pos hAB2
    hf2 hlk2 (ne_of_gt hr2)]
  refine ⟨rfl, round2 (a * r1) * r2, rfl, ?_⟩
  have hclose := round2_close (a * r1)
  have hdiff : round2 (a * r1) * r2 - a = (round2 (a * r1) - a * r1) * r2 := by
    have ha2 : a = a * r1 * r2 := by rw [mul_assoc, hrec, mul_one]
    calc round2 (a * r1) * r2 - a = round2 (a * r1) * r2 - a * r1 * r2 := by rw [← ha2]
      _ = (round2 (a * r1) - a * r1) * r2 := by ring
  rw [hdiff, abs_mul, abs_of_pos hr2]
  calc |round2 (a * r1) - a * r1| * r2 ≤ (1 / 200) * r2 :=
        mul_le_mul_of_nonneg_right hclose hr2.le
    _ = r2 / 200 := by ring

/-- C8 witness: 100 USD → EUR at 0.9, then 90.00 EUR → USD at 10/9. -/
theorem c8_roundtrip_witness :
    (convertCurrency fetchRT fmtPlain dom100).1.resultText =
      "100.00 USD is approximately 90.00 EUR" ∧
    ∃ c2 : ℚ, (convertCurrency fetchRT fmtPlain dom90).1.resultText =
      "90.00 EUR is approximately " ++ fmtPlain "USD" (JSNum.finite c2) ∧
      |c2 - 100| ≤ (10 / 9) / 200 := by
  have hr90 : round2 (100 * (9 / 10)) = 90 := by unfold round2; norm_num
  have hs2 : parseFloat dom90.amountValue = JSNum.finite (round2 (100 * (9 / 10))) := by
    rw [show parseFloat dom90.amountValue = JSNum.finite 90 from parseFloat_9000, hr90]
  obtain ⟨h1, c2, h2, hb⟩ := c8_roundtrip fetchRT fmtPlain dom100 dom90 100 (9 / 10) (10 / 9)
    rates90 ratesRT (by norm_num) (by norm_num) (by norm_num) parseFloat_100 (by decide)
    rfl rfl hs2 rfl rfl rfl rfl (by norm_num)
  constructor
  · rw [h1, toFixed2Q_100, show (100 : ℚ) * (9 / 10) = 90 by norm_num]
    show "100.00" ++ " " ++ "USD" ++ " is approximately " ++ fmtPlain "EUR" (JSNum.finite 90) =
      "100.00 USD is approximately 90.00 EUR"
    rw [show fmtPlain "EUR" (JSNum.finite 90) = toFixed2Q 90 ++ " " ++ "EUR" from rfl, toFixed2Q_90]
    decide
  · refine ⟨c2, ?_, hb⟩
    rw [h2, hr90, toFixed2Q_90]
    show "90.00" ++ " " ++ "EUR" ++ " is approximately " ++ fmtPlain "USD" (JSNum.finite c2) =
      "90.00 EUR is approximately " ++ fmtPlain "USD" (JSNum.finite c2)
    congr 1

/-- C9: when the rate fetch succeeds but maps the target currency to a
falsy value (such as 0), `convertCurrency` shows the generic failure
message rather than a success with a zero converted amount, because the
missing-rate check uses the truthiness of the rate entry. -/
theorem c9_zero_rate_is_failure (fetch : String → String → FetchOutcome)
    (fmt : String → JSNum → String) (d : Dom) (a : ℚ) (resp : ApiResponse) (v : JSNum)
    (hs : parseFloat d.amountValue = .finite a) (ha : 0 < a)
    (hAB : d.fromValue ≠ d.toValue)
    (hf : fetch d.fromValue d.toValue = .ok resp)
    (hlk : ratesLookup resp d.toValue = some v) (hv : v.truthy = false) :
    (convertCurrency fetch fmt d).1.errorText = convFailedMsg ∧
    (convertCurrency fetch fmt d).1.errorShown = true ∧
    (convertCurrency fetch fmt d).1.resultShown = false := by
  rw [convertCurrency_fetchErr fetch fmt d a hs ha hAB
    (Or.inr (Or.inr ⟨resp, hf, Or.inr ⟨v, hlk, hv⟩⟩))]
  exact ⟨rfl, rfl, rfl⟩

/-- C9 witness: the rate entry for EUR is 0. -/
theorem c9_zero_rate_is_failure_witness :
    (convertCurrency fetchZeroRate fmtPlain dom100).1.errorText =
      "Conversion failed. Please try again or check the API status." ∧
    (convertCurrency fetchZeroRate fmtPlain dom100).1.errorShown = true ∧
    (convertCurrency fetchZeroRate fmtPlain dom100).1.resultShown = false := by
  exact c9_zero_rate_is_failure fetchZeroRate fmtPlain dom100 100 ratesZero (JSNum.finite 0)
    parseFloat_100 (by norm_num) (by decide) rfl rfl (by decide)

/-- C10: an amount input made of a positive digit prefix followed by
non-numeric characters (none of digit, `.`, `e`, `E`) is accepted:
`parseFloat` yields the prefix value and the conversion proceeds with it
instead of rejecting the input. -/
theorem c10_numeric_prefix_accepted (fetch : String → String → FetchOutcome)
    (fmt : String → JSNum → String) (d : Dom) (p0 : Char) (pre : List Char)
    (c : Char) (cs : List Char) (r : ℚ) (resp : ApiResponse)
    (hd : d.amountValue = String.mk ((p0 :: pre) ++ c :: cs))
    (hpre : ∀ a ∈ p0 :: pre, isDig a = true)
    (hc : isDig c = false) (hdot : c ≠ '.') (he : c ≠ 'e') (hE : c ≠ 'E')
    (hpos : 0 < digitsVal (p0 :: pre))
    (hAB : d.fromValue ≠ d.toValue)
    (hf : fetch d.fromValue d.toValue = .ok resp)
    (hr : ratesLookup resp d.toValue = some (.finite r)) (hrz : r ≠ 0) :
    parseFloat d.amountValue = .finite (digitsVal (p0 :: pre)) ∧
    (convertCurrency fetch fmt d).2 = true ∧
    (convertCurrency fetch fmt d).1.resultText =
      toFixed2Q (digitsVal (p0 :: pre)) ++ " " ++ d.fromValue ++ " is approximately " ++
        fmt d.toValue (JSNum.finite ((digitsVal (p0 :: pre) : ℚ) * r)) ∧
    (convertCurrency fetch fmt d).1.errorShown = false := by
  have hparse : parseFloat d.amountValue = .finite (digitsVal (p0 :: pre)) := by
    rw [hd]
    exact parseFloat_digits_junk p0 pre c cs hpre hc hdot he hE
  have hapos : (0 : ℚ) < (digitsVal (p0 :: pre) : ℚ) := by exact_mod_cast hpos
  rw [convertCurrency_success fetch fmt d _ r resp hparse hapos hAB hf hr hrz]
  exact ⟨hparse, rfl, rfl, rfl⟩

/-- C10 witness: input `12abc` converts as 12, USD to EUR at rate 0.9. -/
theorem c10_numeric_prefix_accepted_witness :
    parseFloat dom12abc.amountValue = .finite 12 ∧
    (convertCurrency fetch90 fmtPlain dom12abc).2 = true ∧
    (convertCurrency fetch90 fmtPlain dom12abc).1.resultText =
      "12.00 USD is approximately 10.80 EUR" ∧
    (convertCurrency fetch90 fmtPlain dom12abc).1.errorShown = false := by
  have hdv : digitsVal ['1', '2'] = 12 := by decide
  have hcast : ((digitsVal ['1', '2'] : ℕ) : ℚ) = 12 := by rw [hdv]; norm_num
  obtain ⟨h1, h2, h3, h4⟩ := c10_numeric_prefix_accepted fetch90 fmtPlain dom12abc
    '1' ['2'] 'a' ['b', 'c'] (9 / 10) rates90 (by decide) (by decide) (by decide)
    (by decide) (by decide) (by decide) (by decide) (by decide) rfl rfl (by norm_num)
  refine ⟨?_, h2, ?_, h4⟩
  · rw [h1, hdv]
    norm_num
  · rw [h3, hcast, show (12 : ℚ) * (9 / 10) = 54 / 5 by norm_num]
    show toFixed2Q 12 ++ " " ++ "USD" ++ " is approximately " ++
      fmtPlain "EUR" (JSNum.finite (54 / 5)) = "12.00 USD is approximately 10.80 EUR"
    rw [toFixed2Q_12,
      show fmtPlain "EUR" (JSNum.finite (54 / 5)) = toFixed2Q (54 / 5) ++ " " ++ "EUR" from rfl,
      toFixed2Q_10_8]
    decide
